import Mathlib

/-!
Verification development for the `rat_king_parser` configuration pipeline
(`src/rat_king_parser/config_parser/rat_config_parser.py`).

The Python source is shallowly embedded below.  Python `dict`s (which are
insertion-ordered) are modelled as association lists with an insert
operation that updates an existing key in place and appends new keys at
the end.  Mutable instance state (`self._decryptor`,
`self._incompatible_decryptors`) is threaded explicitly through a
`ParseState` value; two ghost trace fields (`ctrace`, `strace`) record
decryptor construction attempts and successful constructions without
influencing control flow.  Exceptions are modelled with `Except`,
distinguishing each raise site of the source by a constructor of `PErr`.

External collaborators that the source file imports but does not define
(the .NET payload abstraction, the config item schemas, the decryptor
registry, the key/value normalization function and the known-field-name
registry) are kept abstract as record fields of `Env` / `DotNetPEPayload`,
mirroring exactly the calls the source makes on them.
-/

/-! ### Ordered dictionaries as association lists -/

def dictInsert {α β : Type} [DecidableEq α] : List (α × β) → α → β → List (α × β)
  | [], k, v => [(k, v)]
  | (k', v') :: t, k, v =>
    if k' = k then (k', v) :: t else (k', v') :: dictInsert t k v

def dictGet {α β : Type} [DecidableEq α] : List (α × β) → α → Option β
  | [], _ => none
  | (k', v') :: t, k => if k' = k then some v' else dictGet t k

def dictContains {α β : Type} [DecidableEq α] (d : List (α × β)) (k : α) : Bool :=
  (dictGet d k).isSome

def dictUpdate {α β : Type} [DecidableEq α] (d d2 : List (α × β)) : List (α × β) :=
  d2.foldl (fun acc kv => dictInsert acc kv.1 kv.2) d

def dictKeys {α β : Type} (d : List (α × β)) : List α := d.map Prod.fst

/-- Insertion sort step, used to model Python `sorted` on the (duplicate-free)
integer key set of `config_fields_map`. -/
def insertSorted (n : Nat) : List Nat → List Nat
  | [] => [n]
  | m :: t => if n ≤ m then n :: m :: t else m :: insertSorted n t

def sortNats (l : List Nat) : List Nat := l.foldr insertSorted []

/-! ### Byte/string helpers (`bytes.hex()`, `str.isascii()`) -/

def hexDigitChar (n : Nat) : Char :=
  if n < 10 then Char.ofNat (48 + n) else Char.ofNat (87 + n)

def byteToHex (b : Nat) : List Char :=
  [hexDigitChar ((b / 16) % 16), hexDigitChar (b % 16)]

/-- Python `bytes.hex()`: lowercase hex encoding, two digits per byte. -/
def bytesHex (bs : List Nat) : String :=
  ⟨bs.foldr (fun b acc => byteToHex b ++ acc) []⟩

/-- Python `str.isascii()`: every code point is below 128. -/
def strIsAscii (s : String) : Bool := s.data.all (fun c => c.toNat < 128)

/-! ### Values and errors -/

/-- Raw and resolved config values flowing through the decoder. -/
inductive Value
  | vstr (s : String)
  | vnat (n : Nat)
  | vpair (a b : Nat)
  | vbool (b : Bool)
  deriving DecidableEq, Repr

/-- One constructor per raise site reachable from the source file. -/
inductive PErr
  | fileNotFound
  | payloadLoad (msg : String)
  | markerNotFound
  | allDecryptorsFailed
  | insufficientFields (count minLen : Nat)
  | noCctor
  | bruteForceExhausted
  | couldNotIdentify (e : PErr)
  | nameErr
  | typeErr
  | keyErr (k : String)
  | decryptorConstructErr (msg : String)
  deriving DecidableEq, Repr

/-- Python `str(e)` for each modelled exception. -/
def err_message : PErr → String
  | .fileNotFound => "File not found"
  | .payloadLoad msg => msg
  | .markerNotFound => "Could not identify VerifyHash() marker"
  | .allDecryptorsFailed => "All decryptors failed"
  | .insufficientFields c m =>
      "Minimum threshold of config items not met: " ++ toString c ++ "/" ++ toString m
  | .noCctor => "No .cctor method could be found"
  | .bruteForceExhausted => "No valid configuration could be parsed from any .cctor methods"
  | .couldNotIdentify e => "Could not identify config: " ++ err_message e
  | .nameErr => "name item_data is not defined"
  | .typeErr => "cannot unpack non-sequence value"
  | .keyErr k => "KeyError: " ++ k
  | .decryptorConstructErr msg => msg

/-! ### External collaborators (abstract interfaces of the imports) -/

/-- A constructed `ConfigDecryptor` instance: recovered key/salt and the
batch decryption function `decrypt_encrypted_strings`. -/
structure Decryptor where
  key : Option (List Nat)
  salt : Option (List Nat)
  decrypt : List (String × Value) → Except Unit (List (String × Value))

/-- Outcome of calling a decryptor class on the payload:
success, `IncompatibleDecryptorException`, or any other exception. -/
inductive ConstructResult
  | cok (d : Decryptor)
  | incompatible
  | cerr (msg : String)

/-- One entry of `SUPPORTED_DECRYPTORS`; `kid` is the class identity used by
the `decryptor in self._incompatible_decryptors` membership test. -/
structure DecryptorKind where
  kid : Nat
  construct : ConstructResult

/-- The runtime type tags tested by `type(item) is ...` in the source. -/
inductive ItemKind
  | plain
  | encryptedString
  | byteArray
  deriving DecidableEq, Repr

/-- One entry of `config_item.SUPPORTED_CONFIG_ITEMS`. -/
structure ConfigItem where
  kind : ItemKind
  parse_from : List Nat → List (Nat × Value)

structure Method where
  rva : Nat
  deriving DecidableEq, Repr

/-- The `DotNetPEPayload` abstraction, restricted to the members the source
file calls. -/
structure DotNetPEPayload where
  sha256 : String
  yara_match : String
  data : List Nat
  field_name_from_rva : Nat → String
  user_string_from_rva : Value → String
  byte_array_from_size_and_rva : Nat → Nat → List Nat
  methods_from_name : String → List Method
  method_body_from_method : Method → List Nat
  method_from_instruction_offset : Nat → Nat → Method

/-- Module-level environment: the imported registries and functions, plus
the effects of `isfile` and `DotNetPEPayload.__init__`. -/
structure Env where
  SUPPORTED_CONFIG_ITEMS : List ConfigItem
  SUPPORTED_DECRYPTORS : List DecryptorKind
  KNOWN_CONFIG_FIELD_NAMES : List String
  check_key_n_value : String → Value → String × Value
  isfile : String → Bool
  payload : Except PErr DotNetPEPayload

/-- The mutable per-parse instance state of `RATConfigParser`:
`self._decryptor`, `self._incompatible_decryptors`, plus two ghost traces:
`ctrace` records each construction attempt together with a snapshot of
`_incompatible_decryptors` at that moment, `strace` records each successful
construction (selection). -/
structure ParseState where
  decryptor : Option Decryptor
  incompatible : List Nat
  ctrace : List (Nat × List Nat)
  strace : List Nat

def initState : ParseState := ⟨none, [], [], []⟩

/-! ### Thresholds -/

def MIN_CONFIG_LEN_FLOOR : Nat := 5
def MIN_CONFIG_LEN_CEILING : Nat := 9

/-! ### The decryptor selection loop (source lines 131-160) -/

inductive LoopOutcome
  | broke (newData : List (String × Value))
  | exhausted
  | raised (e : PErr)

/-- The `for decryptor in SUPPORTED_DECRYPTORS` loop of
`_decrypt_and_decode_config`.  `broke` models `break` after a successful
`decrypt_encrypted_strings`, `exhausted` a normal loop exit, `raised` a
propagating (non-`IncompatibleDecryptorException`) construction error. -/
def decryptLoop (itemData : List (String × Value)) :
    List DecryptorKind → ParseState → ParseState × LoopOutcome
  | [], st => (st, .exhausted)
  | k :: rest, st =>
    if k.kid ∈ st.incompatible then decryptLoop itemData rest st
    else
      match st.decryptor with
      | some d =>
        match d.decrypt itemData with
        | .ok nd => (st, .broke nd)
        | .error _ => decryptLoop itemData rest { st with decryptor := none }
      | none =>
        let st1 := { st with ctrace := st.ctrace ++ [(k.kid, st.incompatible)] }
        match k.construct with
        | .incompatible =>
            decryptLoop itemData rest
              { st1 with incompatible := st1.incompatible ++ [k.kid] }
        | .cerr msg => (st1, .raised (.decryptorConstructErr msg))
        | .cok d =>
            let st2 := { st1 with decryptor := some d, strace := st1.strace ++ [k.kid] }
            match d.decrypt itemData with
            | .ok nd => (st2, .broke nd)
            | .error _ => decryptLoop itemData rest { st2 with decryptor := none }

/-- The decryptor loop followed by the `if self._decryptor is None: raise
ConfigParserException("All decryptors failed")` check. -/
def decrypt_phase (env : Env) (itemData : List (String × Value)) (st : ParseState) :
    ParseState × Except PErr (List (String × Value)) :=
  match decryptLoop itemData env.SUPPORTED_DECRYPTORS st with
  | (st', .raised e) => (st', .error e)
  | (st', .broke nd) =>
    if st'.decryptor.isNone then (st', .error .allDecryptorsFailed) else (st', .ok nd)
  | (st', .exhausted) =>
    if st'.decryptor.isNone then (st', .error .allDecryptorsFailed)
    else (st', .ok itemData)

/-! ### Item decoding (source lines 113-169) -/

/-- The `for k, v in item.parse_from(encrypted_config).items()` loop:
accumulates `config_fields_map` and (name-keyed) `item_data`. -/
def parse_item_data (p : DotNetPEPayload) :
    List (Nat × Value) → List (Nat × String) → List (String × Value) →
    List (Nat × String) × List (String × Value)
  | [], fieldsMap, itemData => (fieldsMap, itemData)
  | (k, v) :: rest, fieldsMap, itemData =>
    let fname := p.field_name_from_rva k
    parse_item_data p rest (dictInsert fieldsMap k fname) (dictInsert itemData fname v)

/-- The `ByteArrayConfigItem` branch: unpack `(arr_size, arr_rva)` and
hex-encode the read bytes; a non-pair value raises (Python unpack error). -/
def byte_array_transform (p : DotNetPEPayload) :
    List (String × Value) → Except PErr (List (String × Value))
  | [] => .ok []
  | (k, v) :: rest =>
    match v with
    | .vpair a b =>
      match byte_array_transform p rest with
      | .ok r => .ok ((k, .vstr (bytesHex (p.byte_array_from_size_and_rva a b))) :: r)
      | .error e => .error e
    | _ => .error .typeErr

/-- Accumulator across the `for item_class in SUPPORTED_CONFIG_ITEMS` loop. -/
structure DecodeAcc where
  decoded_config : List (String × Value)
  config_fields_map : List (Nat × String)
  last_item_data : Option (List (String × Value))

/-- One iteration of the `for item_class in SUPPORTED_CONFIG_ITEMS` loop. -/
def process_config_item (env : Env) (p : DotNetPEPayload) (body : List Nat)
    (item : ConfigItem) (acc : DecodeAcc) (st : ParseState) :
    ParseState × Except PErr DecodeAcc :=
  let pr := parse_item_data p (item.parse_from body) acc.config_fields_map []
  let fm := pr.1
  let idata := pr.2
  if idata.length > 0 then
    match item.kind with
    | .encryptedString =>
      let idata1 := idata.map (fun kv => (kv.1, Value.vstr (p.user_string_from_rva kv.2)))
      match decrypt_phase env idata1 st with
      | (st', .error e) => (st', .error e)
      | (st', .ok idata2) =>
        (st', .ok ⟨dictUpdate acc.decoded_config idata2, fm, some idata2⟩)
    | .byteArray =>
      match byte_array_transform p idata with
      | .error e => (st, .error e)
      | .ok idata2 => (st, .ok ⟨dictUpdate acc.decoded_config idata2, fm, some idata2⟩)
    | .plain => (st, .ok ⟨dictUpdate acc.decoded_config idata, fm, some idata⟩)
  else (st, .ok ⟨acc.decoded_config, fm, some idata⟩)

def decode_items (env : Env) (p : DotNetPEPayload) (body : List Nat) :
    List ConfigItem → DecodeAcc → ParseState → ParseState × Except PErr DecodeAcc
  | [], acc, st => (st, .ok acc)
  | item :: rest, acc, st =>
    match process_config_item env p body item acc st with
    | (st', .error e) => (st', .error e)
    | (st', .ok acc') => decode_items env p body rest acc' st'

/-! ### Remapping (source lines 175-193) -/

/-- The `for k in sorted(config_fields_map.keys())` canonicalization pass,
returning (`sorted_decoded_config`, `normalized_fields`); a missing lookup
models Python `KeyError`. -/
def remap_pass1 (ckv : String → Value → String × Value)
    (fieldsMap : List (Nat × String)) (decoded : List (String × Value)) :
    List Nat → List (String × Value) → List String →
    Except PErr (List (String × Value) × List String)
  | [], sorted, normed => .ok (sorted, normed)
  | k :: rest, sorted, normed =>
    match dictGet fieldsMap k with
    | none => .error (.keyErr (toString k))
    | some keyName =>
      match dictGet decoded keyName with
      | none => .error (.keyErr keyName)
      | some value =>
        let kv' := ckv keyName value
        let normed' := if kv'.1 ≠ keyName then normed ++ [keyName] else normed
        remap_pass1 ckv fieldsMap decoded rest (dictInsert sorted kv'.1 kv'.2) normed'

/-- The full `if self.remap_config` block: canonical pass, then
`sorted_decoded_config.update({...})` with the dynamically-added fields. -/
def remap_config_fn (ckv : String → Value → String × Value)
    (fieldsMap : List (Nat × String)) (decoded : List (String × Value)) :
    Except PErr (List (String × Value)) :=
  match remap_pass1 ckv fieldsMap decoded (sortNats (dictKeys fieldsMap)) [] [] with
  | .error e => .error e
  | .ok (sorted, normed) =>
    .ok (dictUpdate sorted
      (decoded.filter (fun kv => !(dictContains sorted kv.1) && !(normed.contains kv.1))))

/-- The tail of `_decrypt_and_decode_config`: remap if requested, else
return `decoded_config` unchanged. -/
def finish_decode (env : Env) (remap : Bool) (acc : DecodeAcc) :
    Except PErr (List (String × Value)) :=
  if remap then remap_config_fn env.check_key_n_value acc.config_fields_map acc.decoded_config
  else .ok acc.decoded_config

/-- Model of `_decrypt_and_decode_config(encrypted_config, min_config_len)`.
The threshold check mirrors the short-circuit of
`len(decoded_config) < min_config_len and "UrlHost" not in item_data`,
including the `NameError` when no config item schema exists at all. -/
def decrypt_and_decode_config (env : Env) (p : DotNetPEPayload) (remap : Bool)
    (encrypted_config : List Nat) (min_config_len : Nat) (st : ParseState) :
    ParseState × Except PErr (List (String × Value)) :=
  match decode_items env p encrypted_config env.SUPPORTED_CONFIG_ITEMS ⟨[], [], none⟩ st with
  | (st', .error e) => (st', .error e)
  | (st', .ok acc) =>
    if acc.decoded_config.length < min_config_len then
      match acc.last_item_data with
      | none => (st', .error .nameErr)
      | some li =>
        if dictContains li "UrlHost" then (st', finish_decode env remap acc)
        else (st', .error (.insufficientFields acc.decoded_config.length min_config_len))
    else (st', finish_decode env remap acc)

/-! ### Strategy A: the VerifyHash marker (source lines 271-294) -/

/-- Whether the 20-byte compiled `_PATTERN_VERIFY_HASH` regex
`\x7e.{3}\x04(?:\x6f.{3}\x0a){2}\x74.{3}\x01` (with DOTALL wildcards)
matches at offset `i`. -/
def matches_verify_hash_at (data : List Nat) (i : Nat) : Bool :=
  decide (i + 19 < data.length) &&
  data.getD i 0 == 0x7E && data.getD (i + 4) 0 == 0x04 &&
  data.getD (i + 5) 0 == 0x6F && data.getD (i + 9) 0 == 0x0A &&
  data.getD (i + 10) 0 == 0x6F && data.getD (i + 14) 0 == 0x0A &&
  data.getD (i + 15) 0 == 0x74 && data.getD (i + 19) 0 == 0x01

/-- Model of `re.search`: offset of the leftmost match, if any. -/
def search_verify_hash (data : List Nat) : Option Nat :=
  (List.range data.length).find? (matches_verify_hash_at data)

/-- The `while True` retry loop of `_get_config_verify_hash_method`:
on failure re-raise once `min_config_len < _MIN_CONFIG_LEN_FLOOR`,
otherwise decrement and retry. -/
def verify_hash_loop (env : Env) (p : DotNetPEPayload) (remap : Bool)
    (rva : Nat) (body : List Nat) : Nat → ParseState →
    ParseState × Except PErr (Nat × List (String × Value))
  | 0, st =>
    match decrypt_and_decode_config env p remap body 0 st with
    | (st', .ok cfg) => (st', .ok (rva, cfg))
    | (st', .error e) => (st', .error e)
  | m + 1, st =>
    match decrypt_and_decode_config env p remap body (m + 1) st with
    | (st', .ok cfg) => (st', .ok (rva, cfg))
    | (st', .error e) =>
      if m + 1 < MIN_CONFIG_LEN_FLOOR then (st', .error e)
      else verify_hash_loop env p remap rva body m st'

def get_config_verify_hash_method (env : Env) (p : DotNetPEPayload) (remap : Bool)
    (st : ParseState) : ParseState × Except PErr (Nat × List (String × Value)) :=
  match search_verify_hash p.data with
  | none => (st, .error .markerNotFound)
  | some off =>
    let cm := p.method_from_instruction_offset off 1
    verify_hash_loop env p remap cm.rva (p.method_body_from_method cm)
      MIN_CONFIG_LEN_CEILING st

/-! ### Strategy B: .cctor brute force (source lines 228-266) -/

/-- Model of `candidate_cctor_data`, the per-method body dict comprehension. -/
def candidate_cctor_data (p : DotNetPEPayload) : List (Nat × List Nat) :=
  (p.methods_from_name ".cctor").foldl
    (fun d m => dictInsert d m.rva (p.method_body_from_method m)) []

/-- The inner `for method_rva, method_body in candidate_cctor_data.items()`
loop at one threshold: first successful decode wins. -/
def brute_candidates (env : Env) (p : DotNetPEPayload) (remap : Bool)
    (min_config_len : Nat) :
    List (Nat × List Nat) → ParseState → ParseState × Option (Nat × List (String × Value))
  | [], st => (st, none)
  | (rva, body) :: rest, st =>
    match decrypt_and_decode_config env p remap body min_config_len st with
    | (st', .ok cfg) => (st', some (rva, cfg))
    | (st', .error _) => brute_candidates env p remap min_config_len rest st'

/-- The `while decrypted_config is None and min_config_len >=
_MIN_CONFIG_LEN_FLOOR` loop. -/
def brute_loop (env : Env) (p : DotNetPEPayload) (remap : Bool)
    (cands : List (Nat × List Nat)) : Nat → ParseState →
    ParseState × Option (Nat × List (String × Value))
  | 0, st => (st, none)
  | m + 1, st =>
    if m + 1 < MIN_CONFIG_LEN_FLOOR then (st, none)
    else
      match brute_candidates env p remap (m + 1) cands st with
      | (st', some r) => (st', some r)
      | (st', none) => brute_loop env p remap cands m st'

def get_config_cctor_brute_force (env : Env) (p : DotNetPEPayload) (remap : Bool)
    (st : ParseState) : ParseState × Except PErr (Nat × List (String × Value)) :=
  if (p.methods_from_name ".cctor").length = 0 then (st, .error .noCctor)
  else
    match brute_loop env p remap (candidate_cctor_data p) MIN_CONFIG_LEN_CEILING st with
    | (st', some r) => (st', .ok r)
    | (st', none) => (st', .error .bruteForceExhausted)

/-! ### Obfuscation heuristic and top-level config retrieval -/

/-- Model of `_is_likely_obfuscated_config`: scan keys in order; non-ASCII key gives
`true`, a known field name gives `false`, exhaustion gives `true`. -/
def is_likely_obfuscated_config (known : List String) :
    List (String × Value) → Bool
  | [] => true
  | (k, _) :: rest =>
    if !(strIsAscii k) then true
    else if known.contains k then false
    else is_likely_obfuscated_config known rest

/-- The redaction dict comprehension (`obfuscated_key_1`, ...). -/
def obfuscate_keys (cfg : List (String × Value)) : List (String × Value) :=
  cfg.enum.map (fun q => ("obfuscated_key_" ++ toString (q.1 + 1), q.2.2))

/-- The `if not self.preserve_obfuscated_keys and ...` tail of
`_get_config`. -/
def post_process (env : Env) (preserve : Bool) (cfg : List (String × Value)) :
    List (String × Value) :=
  if !preserve && is_likely_obfuscated_config env.KNOWN_CONFIG_FIELD_NAMES cfg then
    obfuscate_keys cfg
  else cfg

/-- Model of `_get_config`: Strategy A, with fallback to Strategy B wrapped in the
combined `Could not identify config` error, then obfuscation handling. -/
def get_config (env : Env) (p : DotNetPEPayload) (remap preserve : Bool)
    (st : ParseState) : ParseState × Except PErr (List (String × Value)) :=
  match get_config_verify_hash_method env p remap st with
  | (st', .ok r) => (st', .ok (post_process env preserve r.2))
  | (st', .error _) =>
    match get_config_cctor_brute_force env p remap st' with
    | (st'', .ok r) => (st'', .ok (post_process env preserve r.2))
    | (st'', .error e) => (st'', .error (.couldNotIdentify e))

/-! ### The constructor `RATConfigParser.__init__` -/

/-- The `config` report entry: initially an (empty) mapping, an error
string on terminal failure. -/
inductive ConfigField
  | m (cfg : List (String × Value))
  | err (s : String)
  deriving DecidableEq, Repr

structure Report where
  file_path : String
  sha256 : String
  yara_possible_family : String
  key : String
  salt : String
  config : ConfigField
  deriving DecidableEq, Repr

structure InitArgs where
  file_path : String
  has_data : Bool
  remap_config : Bool
  preserve_obfuscated_keys : Bool

/-- The formatted message of the outer exception handler. -/
def exc_message (file_path : String) (e : PErr) : String :=
  "Exception encountered for " ++ file_path ++ ": " ++ err_message e

/-- Hex rendering of an optional byte string, `None` when absent. -/
def opt_bytes_str : Option (List Nat) → String
  | some b => bytesHex b
  | none => "None"

def report_key_str : Option Decryptor → String
  | none => "None"
  | some d => opt_bytes_str d.key

def report_salt_str : Option Decryptor → String
  | none => "None"
  | some d => opt_bytes_str d.salt

/-- Model of `RATConfigParser.__init__`: returns the report and (for verification)
the final mutable instance state. -/
def rat_config_init (env : Env) (args : InitArgs) : Report × ParseState :=
  let r0 : Report := ⟨args.file_path, "", "", "", "", .m []⟩
  if !args.has_data && !(env.isfile args.file_path) then
    ({ r0 with config := .err (exc_message args.file_path .fileNotFound) }, initState)
  else
    match env.payload with
    | .error e => ({ r0 with config := .err (exc_message args.file_path e) }, initState)
    | .ok p =>
      let r1 := { r0 with sha256 := p.sha256, yara_possible_family := p.yara_match }
      match get_config env p args.remap_config args.preserve_obfuscated_keys initState with
      | (st', .error e) =>
        ({ r1 with config := .err (exc_message args.file_path e) }, st')
      | (st', .ok cfg) =>
        ({ r1 with
            config := ConfigField.m cfg,
            key := report_key_str st'.decryptor,
            salt := report_salt_str st'.decryptor }, st')

/-! ### Specification-side view of the brute-force search (for C3)

`thresholds_from`, `brute_force_attempts` and `first_success` follow the
spec's words: the candidate thresholds walking down from a starting value
to the floor inclusive, the flattened ordered list of (threshold,
candidate) attempts, and the first-success-wins scan over it. -/

/-- Thresholds attempted from `m` down to the floor, inclusive. -/
def thresholds_from : Nat → List Nat
  | 0 => []
  | k + 1 =>
    if k + 1 < MIN_CONFIG_LEN_FLOOR then [] else (k + 1) :: thresholds_from k

/-- All (threshold, candidate) attempt pairs, thresholds outermost. -/
def brute_force_attempts (cands : List (Nat × List Nat)) (ts : List Nat) :
    List (Nat × Nat × List Nat) :=
  ts.flatMap (fun t => cands.map (fun c => (t, c.1, c.2)))

/-- Scan the attempt list in order, threading the parse state, and return
the first successful decode. -/
def first_success (env : Env) (p : DotNetPEPayload) (remap : Bool) :
    List (Nat × Nat × List Nat) → ParseState →
    ParseState × Option (Nat × List (String × Value))
  | [], st => (st, none)
  | (t, rva, body) :: rest, st =>
    match decrypt_and_decode_config env p remap body t st with
    | (st', .ok cfg) => (st', some (rva, cfg))
    | (st', .error _) => first_success env p remap rest st'

theorem first_success_append (env : Env) (p : DotNetPEPayload) (remap : Bool)
    (a b : List (Nat × Nat × List Nat)) (st : ParseState) :
    first_success env p remap (a ++ b) st =
      match first_success env p remap a st with
      | (st', some r) => (st', some r)
      | (st', none) => first_success env p remap b st' := by
  induction a generalizing st with
  | nil => simp [first_success]
  | cons hd tl ih =>
    obtain ⟨t, rva, body⟩ := hd
    simp only [List.cons_append, first_success]
    cases hdec : decrypt_and_decode_config env p remap body t st with
    | mk st' r =>
      cases r with
      | ok cfg => simp
      | error e => simp [ih]

theorem brute_candidates_eq_first_success (env : Env) (p : DotNetPEPayload)
    (remap : Bool) (t : Nat) (cands : List (Nat × List Nat)) (st : ParseState) :
    brute_candidates env p remap t cands st =
      first_success env p remap (cands.map (fun c => (t, c.1, c.2))) st := by
  induction cands generalizing st with
  | nil => simp [brute_candidates, first_success]
  | cons hd tl ih =>
    obtain ⟨rva, body⟩ := hd
    simp only [brute_candidates, List.map_cons, first_success]
    cases hdec : decrypt_and_decode_config env p remap body t st with
    | mk st' r =>
      cases r with
      | ok cfg => simp
      | error e => simp [ih]

theorem brute_loop_eq_first_success (env : Env) (p : DotNetPEPayload)
    (remap : Bool) (cands : List (Nat × List Nat)) :
    ∀ (m : Nat) (st : ParseState),
      brute_loop env p remap cands m st =
        first_success env p remap (brute_force_attempts cands (thresholds_from m)) st := by
  intro m
  induction m with
  | zero =>
    intro st
    simp [brute_loop, thresholds_from, brute_force_attempts, first_success]
  | succ k ih =>
    intro st
    by_cases h : k + 1 < MIN_CONFIG_LEN_FLOOR
    · simp [brute_loop, thresholds_from, h, brute_force_attempts, first_success]
    · rw [brute_loop, thresholds_from]
      simp only [h, if_false]
      have hatt : brute_force_attempts cands ((k + 1) :: thresholds_from k) =
          cands.map (fun c => (k + 1, c.1, c.2)) ++
            brute_force_attempts cands (thresholds_from k) := by
        simp [brute_force_attempts]
      rw [hatt, first_success_append, ← brute_candidates_eq_first_success]
      cases hbc : brute_candidates env p remap (k + 1) cands st with
      | mk st' r =>
        cases r with
        | some v => simp
        | none => simp [ih]

/-! ### State evolution invariants (for C5, C6, C9)

`IncompatChain S evs S'` says: starting from incompatible-set `S`, the
construction-attempt events `evs` (each recording the attempted kind and
the set at that instant) are consistent — every attempted kind was outside
the set at its attempt, and the set either stays or is extended by exactly
that kind — ending in set `S'`. -/

inductive IncompatChain : List Nat → List (Nat × List Nat) → List Nat → Prop
  | nil (S : List Nat) : IncompatChain S [] S
  | step_same {S S' : List Nat} {k : Nat} {evs : List (Nat × List Nat)} :
      k ∉ S → IncompatChain S evs S' → IncompatChain S ((k, S) :: evs) S'
  | step_add {S S' : List Nat} {k : Nat} {evs : List (Nat × List Nat)} :
      k ∉ S → IncompatChain (S ++ [k]) evs S' → IncompatChain S ((k, S) :: evs) S'

theorem IncompatChain.append {S T U : List Nat} {a b : List (Nat × List Nat)}
    (h1 : IncompatChain S a T) (h2 : IncompatChain T b U) :
    IncompatChain S (a ++ b) U := by
  induction h1 with
  | nil => simpa using h2
  | step_same hk _ ih => exact .step_same hk (ih h2)
  | step_add hk _ ih => exact .step_add hk (ih h2)

theorem IncompatChain.extends_set {S S' : List Nat} {evs : List (Nat × List Nat)}
    (h : IncompatChain S evs S') : ∃ d, S' = S ++ d := by
  induction h with
  | nil => exact ⟨[], by simp⟩
  | step_same _ _ ih => exact ih
  | step_add _ _ ih =>
    obtain ⟨d, hd⟩ := ih
    exact ⟨_, by rw [hd, List.append_assoc]⟩

theorem IncompatChain.snapshots {S S' : List Nat} {evs : List (Nat × List Nat)}
    (h : IncompatChain S evs S') :
    ∀ k T, (k, T) ∈ evs → k ∉ T ∧ ∃ d, T = S ++ d := by
  induction h with
  | nil => intro k T hT; simp at hT
  | step_same hk _ ih =>
    intro k T hT
    rcases List.mem_cons.mp hT with h' | h'
    · obtain ⟨hk1, hk2⟩ := Prod.mk.injEq .. ▸ h'
      subst hk1; subst hk2
      exact ⟨hk, ⟨[], by simp⟩⟩
    · exact ih k T h'
  | step_add hk _ ih =>
    intro k T hT
    rcases List.mem_cons.mp hT with h' | h'
    · obtain ⟨hk1, hk2⟩ := Prod.mk.injEq .. ▸ h'
      subst hk1; subst hk2
      exact ⟨hk, ⟨[], by simp⟩⟩
    · obtain ⟨hne, d, hd⟩ := ih k T h'
      exact ⟨hne, ⟨_, by rw [hd, List.append_assoc]⟩⟩

/-- A kind already in the incompatible set is never attempted again. -/
theorem IncompatChain.no_reattempt {S S' : List Nat} {evs : List (Nat × List Nat)}
    (h : IncompatChain S evs S') :
    ∀ k, k ∈ S → ∀ T, (k, T) ∉ evs := by
  intro k hkS T hmem
  obtain ⟨hnotin, d, hd⟩ := h.snapshots k T hmem
  exact hnotin (hd ▸ List.mem_append_left d hkS)

/-- How the parse state evolves through any stage of the pipeline:
the construction-attempt trace grows by a consistent event chain, the
selection trace only grows, and without a new selection the active
decryptor can only persist or be cleared. -/
def StEvolve (st st' : ParseState) : Prop :=
  (∃ evs, st'.ctrace = st.ctrace ++ evs ∧
    IncompatChain st.incompatible evs st'.incompatible) ∧
  (∃ sel, st'.strace = st.strace ++ sel ∧
    (sel = [] → st'.decryptor = st.decryptor ∨ st'.decryptor = none))

theorem StEvolve.refl (st : ParseState) : StEvolve st st :=
  ⟨⟨[], by simp, .nil _⟩, ⟨[], by simp, fun _ => Or.inl rfl⟩⟩

theorem StEvolve.trans {s1 s2 s3 : ParseState}
    (h12 : StEvolve s1 s2) (h23 : StEvolve s2 s3) : StEvolve s1 s3 := by
  obtain ⟨⟨e1, he1, hc1⟩, ⟨l1, hl1, hd1⟩⟩ := h12
  obtain ⟨⟨e2, he2, hc2⟩, ⟨l2, hl2, hd2⟩⟩ := h23
  refine ⟨⟨e1 ++ e2, ?_, hc1.append hc2⟩, ⟨l1 ++ l2, ?_, ?_⟩⟩
  · rw [he2, he1, List.append_assoc]
  · rw [hl2, hl1, List.append_assoc]
  · intro hnil
    rcases List.append_eq_nil.mp hnil with ⟨h1, h2⟩
    rcases hd2 h2 with h' | h'
    · rcases hd1 h1 with h'' | h''
      · exact Or.inl (h'.trans h'')
      · exact Or.inr (h'.trans h'')
    · exact Or.inr h'

/-- Clearing the active decryptor (without touching traces or the set)
is a valid evolution step. -/
theorem StEvolve.clear_decryptor (st : ParseState) :
    StEvolve st { st with decryptor := none } :=
  ⟨⟨[], by simp, .nil _⟩, ⟨[], by simp, fun _ => Or.inr rfl⟩⟩

theorem decryptLoop_evolve (itemData : List (String × Value)) :
    ∀ (kinds : List DecryptorKind) (st : ParseState),
      StEvolve st (decryptLoop itemData kinds st).1 := by
  intro kinds
  induction kinds with
  | nil => intro st; simpa [decryptLoop] using StEvolve.refl st
  | cons k rest ih =>
    intro st
    rw [decryptLoop]
    by_cases hskip : k.kid ∈ st.incompatible
    · simpa [hskip] using ih st
    · simp only [hskip, if_false]
      cases hd : st.decryptor with
      | some d =>
        simp only []
        cases hdec : d.decrypt itemData with
        | ok nd => simp only [hdec]; exact StEvolve.refl st
        | error e =>
          simp only [hdec]
          exact (StEvolve.clear_decryptor st).trans (ih _)
      | none =>
        simp only []
        cases hc : k.construct with
        | incompatible =>
          simp only [hc]
          refine StEvolve.trans ?_ (ih _)
          exact ⟨⟨[(k.kid, st.incompatible)], by simp,
            .step_add hskip (.nil _)⟩, ⟨[], by simp, fun _ => Or.inr rfl⟩⟩
        | cerr msg =>
          simp only [hc]
          exact ⟨⟨[(k.kid, st.incompatible)], by simp,
            .step_same hskip (.nil _)⟩, ⟨[], by simp, fun _ => Or.inr rfl⟩⟩
        | cok d =>
          simp only [hc]
          cases hdec : d.decrypt itemData with
          | ok nd =>
            simp only [hdec]
            exact ⟨⟨[(k.kid, st.incompatible)], by simp, .step_same hskip (.nil _)⟩,
              ⟨[k.kid], by simp, by intro hcon; simp at hcon⟩⟩
          | error e =>
            simp only [hdec]
            refine StEvolve.trans ?_ (ih _)
            exact ⟨⟨[(k.kid, st.incompatible)], by simp, .step_same hskip (.nil _)⟩,
              ⟨[k.kid], by simp, by intro hcon; simp at hcon⟩⟩

theorem decrypt_phase_evolve (env : Env) (itemData : List (String × Value))
    (st : ParseState) : StEvolve st (decrypt_phase env itemData st).1 := by
  have hbase := decryptLoop_evolve itemData env.SUPPORTED_DECRYPTORS st
  cases h : decryptLoop itemData env.SUPPORTED_DECRYPTORS st with
  | mk st' out =>
    rw [h] at hbase
    cases out with
    | broke nd =>
      by_cases hnone : st'.decryptor.isNone <;>
        simp [decrypt_phase, h, hnone] <;> exact hbase
    | exhausted =>
      by_cases hnone : st'.decryptor.isNone <;>
        simp [decrypt_phase, h, hnone] <;> exact hbase
    | raised e => simpa [decrypt_phase, h] using hbase

theorem process_config_item_evolve (env : Env) (p : DotNetPEPayload)
    (body : List Nat) (item : ConfigItem) (acc : DecodeAcc) (st : ParseState) :
    StEvolve st (process_config_item env p body item acc st).1 := by
  rw [process_config_item]
  by_cases hlen :
    (parse_item_data p (item.parse_from body) acc.config_fields_map []).2.length > 0
  · simp only [hlen, if_true]
    cases hkind : item.kind with
    | encryptedString =>
      simp only []
      have hbase := decrypt_phase_evolve env
        ((parse_item_data p (item.parse_from body) acc.config_fields_map []).2.map
          (fun kv => (kv.1, Value.vstr (p.user_string_from_rva kv.2)))) st
      cases hdp : decrypt_phase env
        ((parse_item_data p (item.parse_from body) acc.config_fields_map []).2.map
          (fun kv => (kv.1, Value.vstr (p.user_string_from_rva kv.2)))) st with
      | mk st' r =>
        rw [hdp] at hbase
        cases r with
        | ok idata2 => simpa using hbase
        | error e => simpa using hbase
    | byteArray =>
      simp only []
      cases hba : byte_array_transform p
        (parse_item_data p (item.parse_from body) acc.config_fields_map []).2 with
      | ok idata2 => exact StEvolve.refl st
      | error e => exact StEvolve.refl st
    | plain => exact StEvolve.refl st
  · simp only [hlen, if_false]
    exact StEvolve.refl st

theorem decode_items_evolve (env : Env) (p : DotNetPEPayload) (body : List Nat) :
    ∀ (items : List ConfigItem) (acc : DecodeAcc) (st : ParseState),
      StEvolve st (decode_items env p body items acc st).1 := by
  intro items
  induction items with
  | nil => intro acc st; exact StEvolve.refl st
  | cons item rest ih =>
    intro acc st
    rw [decode_items]
    have hbase := process_config_item_evolve env p body item acc st
    cases hpi : process_config_item env p body item acc st with
    | mk st' r =>
      rw [hpi] at hbase
      cases r with
      | error e => exact hbase
      | ok acc' => exact hbase.trans (ih acc' st')

theorem decrypt_and_decode_config_evolve (env : Env) (p : DotNetPEPayload)
    (remap : Bool) (body : List Nat) (minLen : Nat) (st : ParseState) :
    StEvolve st (decrypt_and_decode_config env p remap body minLen st).1 := by
  rw [decrypt_and_decode_config]
  have hbase := decode_items_evolve env p body env.SUPPORTED_CONFIG_ITEMS ⟨[], [], none⟩ st
  cases hdi : decode_items env p body env.SUPPORTED_CONFIG_ITEMS ⟨[], [], none⟩ st with
  | mk st' r =>
    rw [hdi] at hbase
    cases r with
    | error e => exact hbase
    | ok acc =>
      simp only []
      by_cases hlt : acc.decoded_config.length < minLen
      · simp only [hlt, if_true]
        cases hli : acc.last_item_data with
        | none => exact hbase
        | some li =>
          simp only []
          by_cases hurl : dictContains li "UrlHost" <;> simp [hurl] <;> exact hbase
      · simp only [hlt, if_false]
        exact hbase

theorem brute_candidates_evolve (env : Env) (p : DotNetPEPayload) (remap : Bool)
    (minLen : Nat) :
    ∀ (cands : List (Nat × List Nat)) (st : ParseState),
      StEvolve st (brute_candidates env p remap minLen cands st).1 := by
  intro cands
  induction cands with
  | nil => intro st; exact StEvolve.refl st
  | cons hd tl ih =>
    intro st
    obtain ⟨rva, body⟩ := hd
    rw [brute_candidates]
    have hbase := decrypt_and_decode_config_evolve env p remap body minLen st
    cases hdec : decrypt_and_decode_config env p remap body minLen st with
    | mk st' r =>
      rw [hdec] at hbase
      cases r with
      | ok cfg => exact hbase
      | error e => exact hbase.trans (ih st')

theorem brute_loop_evolve (env : Env) (p : DotNetPEPayload) (remap : Bool)
    (cands : List (Nat × List Nat)) :
    ∀ (m : Nat) (st : ParseState), StEvolve st (brute_loop env p remap cands m st).1 := by
  intro m
  induction m with
  | zero => intro st; exact StEvolve.refl st
  | succ k ih =>
    intro st
    rw [brute_loop]
    by_cases h : k + 1 < MIN_CONFIG_LEN_FLOOR
    · simp only [h, if_true]; exact StEvolve.refl st
    · simp only [h, if_false]
      have hbase := brute_candidates_evolve env p remap (k + 1) cands st
      cases hbc : brute_candidates env p remap (k + 1) cands st with
      | mk st' r =>
        rw [hbc] at hbase
        cases r with
        | some v => exact hbase
        | none => exact hbase.trans (ih st')

theorem verify_hash_loop_evolve (env : Env) (p : DotNetPEPayload) (remap : Bool)
    (rva : Nat) (body : List Nat) :
    ∀ (m : Nat) (st : ParseState),
      StEvolve st (verify_hash_loop env p remap rva body m st).1 := by
  intro m
  induction m with
  | zero =>
    intro st
    rw [verify_hash_loop]
    have hbase := decrypt_and_decode_config_evolve env p remap body 0 st
    cases hdec : decrypt_and_decode_config env p remap body 0 st with
    | mk st' r =>
      rw [hdec] at hbase
      cases r with
      | ok cfg => exact hbase
      | error e => exact hbase
  | succ k ih =>
    intro st
    rw [verify_hash_loop]
    have hbase := decrypt_and_decode_config_evolve env p remap body (k + 1) st
    cases hdec : decrypt_and_decode_config env p remap body (k + 1) st with
    | mk st' r =>
      rw [hdec] at hbase
      cases r with
      | ok cfg => exact hbase
      | error e =>
        simp only []
        by_cases h : k + 1 < MIN_CONFIG_LEN_FLOOR
        · simp only [h, if_true]; exact hbase
        · simp only [h, if_false]; exact hbase.trans (ih st')

theorem get_config_verify_hash_method_evolve (env : Env) (p : DotNetPEPayload)
    (remap : Bool) (st : ParseState) :
    StEvolve st (get_config_verify_hash_method env p remap st).1 := by
  rw [get_config_verify_hash_method]
  cases hs : search_verify_hash p.data with
  | none => exact StEvolve.refl st
  | some off => exact verify_hash_loop_evolve env p remap _ _ _ st

theorem get_config_cctor_brute_force_evolve (env : Env) (p : DotNetPEPayload)
    (remap : Bool) (st : ParseState) :
    StEvolve st (get_config_cctor_brute_force env p remap st).1 := by
  rw [get_config_cctor_brute_force]
  by_cases hn : (p.methods_from_name ".cctor").length = 0
  · simp only [hn, if_true]; exact StEvolve.refl st
  · simp only [hn, if_false]
    have hbase := brute_loop_evolve env p remap (candidate_cctor_data p)
      MIN_CONFIG_LEN_CEILING st
    cases hbl : brute_loop env p remap (candidate_cctor_data p)
        MIN_CONFIG_LEN_CEILING st with
    | mk st' r =>
      rw [hbl] at hbase
      cases r with
      | some v => exact hbase
      | none => exact hbase

theorem get_config_evolve (env : Env) (p : DotNetPEPayload) (remap preserve : Bool)
    (st : ParseState) : StEvolve st (get_config env p remap preserve st).1 := by
  rw [get_config]
  have hA := get_config_verify_hash_method_evolve env p remap st
  cases hvh : get_config_verify_hash_method env p remap st with
  | mk st' r =>
    rw [hvh] at hA
    cases r with
    | ok v => exact hA
    | error e =>
      simp only []
      have hB := get_config_cctor_brute_force_evolve env p remap st'
      cases hbf : get_config_cctor_brute_force env p remap st' with
      | mk st'' r2 =>
        rw [hbf] at hB
        cases r2 with
        | ok v => simp only [hbf]; exact hA.trans hB
        | error e2 => simp only [hbf]; exact hA.trans hB

/-! ### Characterization of the decryptor loop outcomes (for C6) -/

/-- A `break` out of the decryptor loop happens exactly after a successful
batch decryption by the decryptor that remains selected. -/
theorem decryptLoop_broke_decrypt_ok (itemData : List (String × Value)) :
    ∀ (kinds : List DecryptorKind) (st st' : ParseState)
      (nd : List (String × Value)),
      decryptLoop itemData kinds st = (st', .broke nd) →
      ∃ d', st'.decryptor = some d' ∧ d'.decrypt itemData = .ok nd := by
  intro kinds
  induction kinds with
  | nil =>
    intro st st' nd h
    rw [decryptLoop] at h
    cases h
  | cons k rest ih =>
    intro st st' nd h
    rw [decryptLoop] at h
    by_cases hskip : k.kid ∈ st.incompatible
    · rw [if_pos hskip] at h
      exact ih st st' nd h
    · rw [if_neg hskip] at h
      cases hd : st.decryptor with
      | some d =>
        rw [hd] at h
        simp only [] at h
        cases hdec : d.decrypt itemData with
        | ok nd0 =>
          rw [hdec] at h
          simp only [] at h
          obtain ⟨h1, h2⟩ := Prod.mk.injEq .. ▸ h
          cases h2
          exact ⟨d, by rw [← h1, hd], hdec⟩
        | error e =>
          rw [hdec] at h
          exact ih _ st' nd h
      | none =>
        rw [hd] at h
        simp only [] at h
        cases hc : k.construct with
        | incompatible =>
          rw [hc] at h
          exact ih _ st' nd h
        | cerr msg =>
          rw [hc] at h
          simp only [] at h
          obtain ⟨h1, h2⟩ := Prod.mk.injEq .. ▸ h
          cases h2
        | cok d =>
          rw [hc] at h
          simp only [] at h
          cases hdec : d.decrypt itemData with
          | ok nd0 =>
            rw [hdec] at h
            simp only [] at h
            obtain ⟨h1, h2⟩ := Prod.mk.injEq .. ▸ h
            cases h2
            exact ⟨d, by rw [← h1], hdec⟩
          | error e =>
            rw [hdec] at h
            exact ih _ st' nd h

/-! ### Dictionary lemmas (for C7/C8) -/

theorem dictGet_append_right {α β : Type} [DecidableEq α]
    (d e : List (α × β)) (k : α) (h : dictContains d k = false) :
    dictGet (d ++ e) k = dictGet e k := by
  induction d with
  | nil => simp
  | cons hd tl ih =>
    obtain ⟨k', v'⟩ := hd
    simp only [dictContains, dictGet] at h
    by_cases hk : k' = k
    · simp [dictGet, hk] at h
    · simp only [List.cons_append, dictGet, hk, if_false]
      exact ih (by simpa [dictContains, hk] using h)

theorem dictContains_append {α β : Type} [DecidableEq α]
    (d e : List (α × β)) (k : α) (h : dictContains d k = false) :
    dictContains (d ++ e) k = dictContains e k := by
  simp [dictContains, dictGet_append_right d e k h]

/-- Inserting an absent key appends it at the end (Python dict append). -/
theorem dictInsert_of_not_contains {α β : Type} [DecidableEq α]
    (d : List (α × β)) (k : α) (v : β) (h : dictContains d k = false) :
    dictInsert d k v = d ++ [(k, v)] := by
  induction d with
  | nil => simp [dictInsert]
  | cons hd tl ih =>
    obtain ⟨k', v'⟩ := hd
    simp only [dictContains, dictGet] at h
    by_cases hk : k' = k
    · simp [hk] at h
    · simp only [dictInsert, hk, if_false, List.cons_append, List.cons.injEq, true_and]
      exact ih (by simpa [dictContains, hk] using h)

/-- Updating a dict with fresh, pairwise-distinct keys is an append. -/
theorem dictUpdate_of_fresh {α β : Type} [DecidableEq α] :
    ∀ (e d : List (α × β)),
      (∀ kv, kv ∈ e → dictContains d kv.1 = false) →
      (e.map Prod.fst).Nodup →
      dictUpdate d e = d ++ e := by
  intro e
  induction e with
  | nil => intro d _ _; simp [dictUpdate]
  | cons hd tl ih =>
    intro d hfresh hnodup
    obtain ⟨k, v⟩ := hd
    simp only [List.map_cons, List.nodup_cons] at hnodup
    have hk : dictContains d k = false := hfresh (k, v) (List.mem_cons_self _ _)
    have step : dictUpdate d ((k, v) :: tl) = dictUpdate (d ++ [(k, v)]) tl := by
      simp [dictUpdate, dictInsert_of_not_contains d k v hk]
    rw [step, ih (d ++ [(k, v)]) ?_ hnodup.2, List.append_assoc]
    · simp
    · intro kv hkv
      rw [dictContains_append d [(k, v)] kv.1 (hfresh kv (List.mem_cons_of_mem _ hkv))]
      have hne : kv.1 ≠ k := by
        intro hcontra
        exact hnodup.1 (hcontra ▸ List.mem_map_of_mem Prod.fst hkv)
      simp [dictContains, dictGet, Ne.symm hne]

/-! ### Remap error shape (for C7) -/

theorem remap_pass1_error_is_keyErr (ckv : String → Value → String × Value)
    (fieldsMap : List (Nat × String)) (decoded : List (String × Value)) :
    ∀ (ks : List Nat) (sorted : List (String × Value)) (normed : List String) (e : PErr),
      remap_pass1 ckv fieldsMap decoded ks sorted normed = .error e →
      ∃ k, e = .keyErr k := by
  intro ks
  induction ks with
  | nil =>
    intro sorted normed e h
    rw [remap_pass1] at h
    cases h
  | cons k rest ih =>
    intro sorted normed e h
    rw [remap_pass1] at h
    cases hfm : dictGet fieldsMap k with
    | none =>
      rw [hfm] at h
      simp only [] at h
      cases h
      exact ⟨toString k, rfl⟩
    | some keyName =>
      rw [hfm] at h
      simp only [] at h
      cases hdg : dictGet decoded keyName with
      | none =>
        rw [hdg] at h
        simp only [] at h
        cases h
        exact ⟨keyName, rfl⟩
      | some value =>
        rw [hdg] at h
        simp only [] at h
        exact ih _ _ e h

theorem finish_decode_no_insufficient (env : Env) (remap : Bool) (acc : DecodeAcc)
    (c m : Nat) : finish_decode env remap acc ≠ .error (.insufficientFields c m) := by
  rw [finish_decode]
  by_cases hr : remap
  · simp only [hr, if_true]
    rw [remap_config_fn]
    cases hp : remap_pass1 env.check_key_n_value acc.config_fields_map
        acc.decoded_config (sortNats (dictKeys acc.config_fields_map)) [] [] with
    | error e =>
      simp only []
      intro hcontra
      cases hcontra
      obtain ⟨k, hk⟩ := remap_pass1_error_is_keyErr env.check_key_n_value
        acc.config_fields_map acc.decoded_config _ [] [] _ hp
      cases hk
    | ok pr =>
      obtain ⟨sorted, normed⟩ := pr
      simp only []
      intro hcontra
      cases hcontra
  · simp only [hr, if_false]
    intro hcontra
    cases hcontra

/-- The only exception the decryptor loop itself propagates is a
non-`Incompatible` construction error. -/
theorem decryptLoop_raised_shape (itemData : List (String × Value)) :
    ∀ (kinds : List DecryptorKind) (st st' : ParseState) (e : PErr),
      decryptLoop itemData kinds st = (st', .raised e) →
      ∃ msg, e = .decryptorConstructErr msg := by
  intro kinds
  induction kinds with
  | nil =>
    intro st st' e h
    rw [decryptLoop] at h
    cases h
  | cons k rest ih =>
    intro st st' e h
    rw [decryptLoop] at h
    by_cases hskip : k.kid ∈ st.incompatible
    · rw [if_pos hskip] at h
      exact ih st st' e h
    · rw [if_neg hskip] at h
      cases hd : st.decryptor with
      | some d =>
        rw [hd] at h
        simp only [] at h
        cases hdec : d.decrypt itemData with
        | ok nd0 =>
          rw [hdec] at h
          simp only [] at h
          obtain ⟨h1, h2⟩ := Prod.mk.injEq .. ▸ h
          cases h2
        | error er =>
          rw [hdec] at h
          exact ih _ st' e h
      | none =>
        rw [hd] at h
        simp only [] at h
        cases hc : k.construct with
        | incompatible =>
          rw [hc] at h
          exact ih _ st' e h
        | cerr msg =>
          rw [hc] at h
          simp only [] at h
          obtain ⟨h1, h2⟩ := Prod.mk.injEq .. ▸ h
          cases h2
          exact ⟨msg, rfl⟩
        | cok d =>
          rw [hc] at h
          simp only [] at h
          cases hdec : d.decrypt itemData with
          | ok nd0 =>
            rw [hdec] at h
            simp only [] at h
            obtain ⟨h1, h2⟩ := Prod.mk.injEq .. ▸ h
            cases h2
          | error er =>
            rw [hdec] at h
            exact ih _ st' e h

/-! ### Claim theorems -/

/-- C5: within a single parse (one run of `_get_config`, covering both
location strategies, every candidate region and every threshold), the
incompatible-decryptor set only grows — a kind is appended exactly when its
construction raises `IncompatibleDecryptorException` and the set is never
cleared — every construction attempt targets a kind outside the set at that
moment, and a kind already in the set is never reattempted for
construction. -/
theorem claim_C5_incompatible_monotonic_never_reattempted
    (env : Env) (p : DotNetPEPayload) (remap preserve : Bool) (st : ParseState) :
    ∃ evs,
      (get_config env p remap preserve st).1.ctrace = st.ctrace ++ evs ∧
      IncompatChain st.incompatible evs
        (get_config env p remap preserve st).1.incompatible ∧
      (∀ k, k ∈ st.incompatible → ∀ S, (k, S) ∉ evs) ∧
      (∃ d, (get_config env p remap preserve st).1.incompatible =
        st.incompatible ++ d) := by
  obtain ⟨⟨evs, hev, hchain⟩, _⟩ := get_config_evolve env p remap preserve st
  exact ⟨evs, hev, hchain, hchain.no_reattempt, hchain.extends_set⟩

/-- C6: in the decryptor-selection loop, a failed batch decryption resets
the selection and moves to the next registry kind without marking it
incompatible — both when the failing decryptor was reused from a prior
batch (first conjunct) and when it was freshly constructed in the same
iteration (second conjunct: only the ghost traces record the attempt, the
incompatible set is inherited unchanged from `st`); a `break` happens
exactly when the currently selected decryptor decrypted the batch
successfully (and it stays selected); and `All decryptors failed` is
raised if and only if the registry is exhausted with no decryptor
selected. -/
theorem claim_C6_selection_loop_behavior
    (env : Env) (itemData : List (String × Value)) (st : ParseState) :
    (∀ (k : DecryptorKind) (rest : List DecryptorKind) (d : Decryptor) (er : Unit),
      st.decryptor = some d → k.kid ∉ st.incompatible →
      d.decrypt itemData = .error er →
      decryptLoop itemData (k :: rest) st =
        decryptLoop itemData rest { st with decryptor := none }) ∧
    (∀ (k : DecryptorKind) (rest : List DecryptorKind) (d : Decryptor) (er : Unit),
      st.decryptor = none → k.kid ∉ st.incompatible →
      k.construct = .cok d → d.decrypt itemData = .error er →
      decryptLoop itemData (k :: rest) st =
        decryptLoop itemData rest
          { st with
              decryptor := none,
              ctrace := st.ctrace ++ [(k.kid, st.incompatible)],
              strace := st.strace ++ [k.kid] }) ∧
    (∀ (kinds : List DecryptorKind) (st' : ParseState) (nd : List (String × Value)),
      decryptLoop itemData kinds st = (st', .broke nd) →
      ∃ d', st'.decryptor = some d' ∧ d'.decrypt itemData = .ok nd) ∧
    (∀ (st' : ParseState) (r : Except PErr (List (String × Value))),
      decrypt_phase env itemData st = (st', r) →
      (r = .error .allDecryptorsFailed ↔
        (decryptLoop itemData env.SUPPORTED_DECRYPTORS st = (st', .exhausted) ∧
          st'.decryptor = none))) := by
  refine ⟨?_, ?_, ?_, ?_⟩
  · intro k rest d er hd hskip hdec
    rw [decryptLoop, if_neg hskip, hd]
    simp only [hdec]
  · intro k rest d er hd hskip hc hdec
    rw [decryptLoop, if_neg hskip, hd]
    simp only [hc, hdec]
  · intro kinds st' nd h
    exact decryptLoop_broke_decrypt_ok itemData kinds st st' nd h
  · intro st' r hphase
    rw [decrypt_phase] at hphase
    cases hloop : decryptLoop itemData env.SUPPORTED_DECRYPTORS st with
    | mk st0 out =>
      rw [hloop] at hphase
      cases out with
      | raised e =>
        simp only [] at hphase
        obtain ⟨h1, h2⟩ := Prod.mk.injEq .. ▸ hphase
        obtain ⟨msg, hmsg⟩ := decryptLoop_raised_shape itemData _ st st0 e hloop
        constructor
        · intro hr
          rw [← h2, hmsg] at hr
          cases hr
        · rintro ⟨hcontra, -⟩
          simp at hcontra
      | broke nd =>
        obtain ⟨d', hd', hdec'⟩ :=
          decryptLoop_broke_decrypt_ok itemData _ st st0 nd hloop
        have hnone : st0.decryptor.isNone = false := by rw [hd']; rfl
        simp only [] at hphase
        rw [hnone] at hphase
        simp only [Bool.false_eq_true, if_false] at hphase
        obtain ⟨h1, h2⟩ := Prod.mk.injEq .. ▸ hphase
        constructor
        · intro hr
          rw [← h2] at hr
          cases hr
        · rintro ⟨hcontra, -⟩
          simp at hcontra
      | exhausted =>
        cases hnone : st0.decryptor with
        | none =>
          have hisnone : st0.decryptor.isNone = true := by rw [hnone]; rfl
          simp only [] at hphase
          rw [hisnone] at hphase
          simp only [if_true] at hphase
          obtain ⟨h1, h2⟩ := Prod.mk.injEq .. ▸ hphase
          constructor
          · intro _
            exact ⟨by rw [h1], by rw [← h1, hnone]⟩
          · intro _
            rw [← h2]
        | some d =>
          have hisnone : st0.decryptor.isNone = false := by rw [hnone]; rfl
          simp only [] at hphase
          rw [hisnone] at hphase
          simp only [Bool.false_eq_true, if_false] at hphase
          obtain ⟨h1, h2⟩ := Prod.mk.injEq .. ▸ hphase
          constructor
          · intro hr
            rw [← h2] at hr
            cases hr
          · rintro ⟨hcontra, hnone'⟩
            obtain ⟨h3, -⟩ := Prod.mk.injEq .. ▸ hcontra
            rw [← h3, hnone] at hnone'
            cases hnone'

/-- C3: the brute-force search tries thresholds exactly 9, 8, 7, 6, 5 in
strictly decreasing order, each candidate `.cctor` in enumeration order at
each threshold, returning the first successful (threshold, candidate)
decode immediately and never attempting anything after a success; with no
candidates it fails with the no-`.cctor` error, and with no success at any
threshold down to 5 it fails with the exhaustion error. -/
theorem claim_C3_brute_force_first_success_order
    (env : Env) (p : DotNetPEPayload) (remap : Bool) (st : ParseState) :
    ((p.methods_from_name ".cctor").length = 0 →
      get_config_cctor_brute_force env p remap st = (st, .error .noCctor)) ∧
    ((p.methods_from_name ".cctor").length ≠ 0 →
      get_config_cctor_brute_force env p remap st =
        (match first_success env p remap
            (brute_force_attempts (candidate_cctor_data p) [9, 8, 7, 6, 5]) st with
          | (st', some r) => (st', .ok r)
          | (st', none) => (st', .error .bruteForceExhausted))) ∧
    thresholds_from MIN_CONFIG_LEN_CEILING = [9, 8, 7, 6, 5] := by
  have hth : thresholds_from MIN_CONFIG_LEN_CEILING = [9, 8, 7, 6, 5] := by decide
  refine ⟨?_, ?_, hth⟩
  · intro h0
    rw [get_config_cctor_brute_force, if_pos h0]
  · intro hne
    rw [get_config_cctor_brute_force, if_neg hne,
      brute_loop_eq_first_success env p remap (candidate_cctor_data p)
        MIN_CONFIG_LEN_CEILING st, hth]

/-- C4: for every input, the constructor returns a report (the embedding is
a total function); on any terminal failure the `config` field is the
descriptive `Exception encountered for ...` string, and `sha256` /
`yara_possible_family` hold the payload values exactly when the payload
loaded successfully (and empty strings otherwise). -/
theorem claim_C4_init_total_error_string_partial_state
    (env : Env) (args : InitArgs) :
    ((∃ cfg, (rat_config_init env args).1.config = .m cfg) ∨
     (∃ m, (rat_config_init env args).1.config =
        .err ("Exception encountered for " ++ args.file_path ++ ": " ++ m))) ∧
    (((rat_config_init env args).1.sha256,
      (rat_config_init env args).1.yara_possible_family) =
      if !args.has_data && !(env.isfile args.file_path) then ("", "")
      else
        match env.payload with
        | .error _ => ("", "")
        | .ok p => (p.sha256, p.yara_match)) := by
  rw [rat_config_init]
  by_cases hfile : !args.has_data && !(env.isfile args.file_path)
  · simp only [hfile, if_true]
    exact ⟨Or.inr ⟨err_message .fileNotFound, rfl⟩, by simp⟩
  · simp only [hfile, Bool.false_eq_true, if_false]
    cases hp : env.payload with
    | error e =>
      simp only []
      exact ⟨Or.inr ⟨err_message e, rfl⟩, trivial⟩
    | ok p =>
      simp only []
      cases hgc : get_config env p args.remap_config args.preserve_obfuscated_keys
          initState with
      | mk st' r =>
        cases r with
        | error e =>
          simp only []
          exact ⟨Or.inr ⟨err_message e, rfl⟩, trivial⟩
        | ok cfg =>
          simp only []
          exact ⟨Or.inl ⟨cfg, rfl⟩, trivial⟩

/-- C7: given that the item-decoding phase succeeded, the decode fails with
the insufficient-fields error if and only if the accumulated field count is
strictly below the threshold and the last-processed schema's field set does
not contain `UrlHost`; when `UrlHost` is present in that last field set the
length check is bypassed and the decode proceeds to the remap/return phase
regardless of its size. -/
theorem claim_C7_insufficient_fields_iff_urlhost_carveout
    (env : Env) (p : DotNetPEPayload) (remap : Bool) (body : List Nat)
    (minLen : Nat) (st st1 : ParseState) (acc : DecodeAcc)
    (hdec : decode_items env p body env.SUPPORTED_CONFIG_ITEMS ⟨[], [], none⟩ st =
      (st1, .ok acc)) :
    (((decrypt_and_decode_config env p remap body minLen st).2 =
        .error (.insufficientFields acc.decoded_config.length minLen)) ↔
      (acc.decoded_config.length < minLen ∧
        ∃ li, acc.last_item_data = some li ∧ dictContains li "UrlHost" = false)) ∧
    (∀ li, acc.last_item_data = some li → dictContains li "UrlHost" = true →
      decrypt_and_decode_config env p remap body minLen st =
        (st1, finish_decode env remap acc)) := by
  rw [decrypt_and_decode_config, hdec]
  simp only []
  constructor
  · by_cases hlt : acc.decoded_config.length < minLen
    · simp only [hlt, if_true]
      cases hli : acc.last_item_data with
      | none =>
        simp only []
        constructor
        · intro h
          cases h
        · rintro ⟨-, li, hli2, -⟩
          cases hli2
      | some li =>
        simp only []
        by_cases hurl : dictContains li "UrlHost"
        · simp only [hurl, if_true]
          constructor
          · intro h
            exact absurd h.symm (by
              intro hcontra
              exact finish_decode_no_insufficient env remap acc _ _ hcontra.symm)
          · rintro ⟨-, li2, hli2, hurl2⟩
            cases hli2
            rw [hurl] at hurl2
            cases hurl2
        · simp only [hurl, Bool.false_eq_true, if_false]
          exact ⟨fun _ => ⟨trivial, li, rfl, by simpa using hurl⟩, fun _ => trivial⟩
    · simp only [hlt, if_false]
      constructor
      · intro h
        exact absurd h (finish_decode_no_insufficient env remap acc _ _)
      · rintro ⟨hcontra, -⟩
        exact hcontra.elim
  · intro li hli hurl
    by_cases hlt : acc.decoded_config.length < minLen
    · simp only [hlt, if_true, hli, hurl, if_true]
    · simp only [hlt, if_false]

/-- C8: when remapping is requested and succeeds, the returned mapping is
exactly the ascending-field-id canonicalization pass followed by the
decoded entries whose keys are neither already present in that pass nor
recorded as renamed originals, appended in the decoded mapping's original
iteration order with their original names and values. -/
theorem claim_C8_remap_canonical_pass_then_leftovers
    (ckv : String → Value → String × Value)
    (fieldsMap : List (Nat × String)) (decoded out : List (String × Value))
    (hnodup : (decoded.map Prod.fst).Nodup)
    (hok : remap_config_fn ckv fieldsMap decoded = .ok out) :
    ∃ pass1 normed,
      remap_pass1 ckv fieldsMap decoded (sortNats (dictKeys fieldsMap)) [] [] =
        .ok (pass1, normed) ∧
      out = pass1 ++ decoded.filter
        (fun kv => !(dictContains pass1 kv.1) && !(normed.contains kv.1)) := by
  rw [remap_config_fn] at hok
  cases hp : remap_pass1 ckv fieldsMap decoded (sortNats (dictKeys fieldsMap)) [] [] with
  | error e =>
    rw [hp] at hok
    cases hok
  | ok pr =>
    obtain ⟨pass1, normed⟩ := pr
    rw [hp] at hok
    simp only [] at hok
    cases hok
    refine ⟨pass1, normed, rfl, ?_⟩
    apply dictUpdate_of_fresh
    · intro kv hkv
      have := List.of_mem_filter hkv
      simp only [Bool.and_eq_true, Bool.not_eq_true'] at this
      exact this.1
    · refine List.Nodup.sublist ?_ hnodup
      exact List.Sublist.map Prod.fst (List.filter_sublist decoded)

/-- Modelled from the spec: the static registry of known-genuine field
names (`KNOWN_CONFIG_FIELD_NAMES`, imported from
`config_decryptor_plaintext`, which is repository code not under `src/`).
The spec's obfuscation-redaction example treats `port` as a known-genuine
name, so the modelled registry contains it. -/
def KNOWN_CONFIG_FIELD_NAMES_spec : List String := ["port"]

/-- C2 (counterexample): a mapping containing a non-ASCII key is classified
as NOT obfuscated when a known-genuine key precedes it in iteration order,
so the non-ASCII signal does not have unconditional priority. -/
theorem claim_C2_counterexample_known_name_first :
    strIsAscii "éKey" = false ∧
    is_likely_obfuscated_config KNOWN_CONFIG_FIELD_NAMES_spec
      [("port", .vstr "1234"), ("éKey", .vstr "a")] = false := by
  constructor
  · rfl
  · rfl

/-- C2 (amended): the scan is per-key in iteration order; a non-ASCII key
forces classification as obfuscated provided every earlier key is ASCII and
not in the known-genuine registry (in particular whenever the non-ASCII key
comes first, as in the spec's example). -/
theorem claim_C2_nonascii_priority_in_scan_order
    (known : List String) (pre rest : List (String × Value))
    (k : String) (v : Value)
    (hk : strIsAscii k = false)
    (hpre : ∀ kv, kv ∈ pre → strIsAscii kv.1 = true ∧ known.contains kv.1 = false) :
    is_likely_obfuscated_config known (pre ++ (k, v) :: rest) = true := by
  induction pre with
  | nil =>
    rw [List.nil_append, is_likely_obfuscated_config, hk]
    rfl
  | cons kv0 tl ih =>
    obtain ⟨k0, v0⟩ := kv0
    obtain ⟨hascii, hknown⟩ := hpre (k0, v0) (List.mem_cons_self _ _)
    rw [List.cons_append, is_likely_obfuscated_config, hascii]
    simp only [Bool.not_true, Bool.false_eq_true, if_false, hknown,
      Bool.false_eq_true, if_false]
    exact ih (fun kv hkv => hpre kv (List.mem_cons_of_mem _ hkv))

/-- Hex encoding is empty exactly for the empty byte string. -/
theorem bytesHex_eq_empty_iff (bs : List Nat) : bytesHex bs = "" ↔ bs = [] := by
  cases bs with
  | nil => simp [bytesHex]
  | cons b t =>
    constructor
    · intro h
      have hdata := congrArg String.data h
      simp [bytesHex, byteToHex] at hdata
    · intro h
      cases h

/-- C9: for a parse that completes without a terminal failure, if no
decryptor was ever selected (no successful construction event exists), the
report's key and salt are both the string `None`; and whenever a decryptor
is active at the end, the key/salt are its hex-encoded key/salt when
present and `None` for each absent one. -/
theorem claim_C9_key_salt_none_or_hex
    (env : Env) (args : InitArgs) (r : Report) (st' : ParseState)
    (hinit : rat_config_init env args = (r, st'))
    (cfg : List (String × Value)) (hcfg : r.config = .m cfg) :
    (st'.strace = [] → r.key = "None" ∧ r.salt = "None") ∧
    (∀ d, st'.decryptor = some d →
      r.key = opt_bytes_str d.key ∧ r.salt = opt_bytes_str d.salt) := by
  rw [rat_config_init] at hinit
  by_cases hfile : !args.has_data && !(env.isfile args.file_path)
  · rw [if_pos hfile] at hinit
    obtain ⟨h1, -⟩ := Prod.mk.injEq .. ▸ hinit
    rw [← h1] at hcfg
    cases hcfg
  · rw [if_neg hfile] at hinit
    cases hp : env.payload with
    | error e =>
      rw [hp] at hinit
      simp only [] at hinit
      obtain ⟨h1, -⟩ := Prod.mk.injEq .. ▸ hinit
      rw [← h1] at hcfg
      cases hcfg
    | ok p =>
      rw [hp] at hinit
      simp only [] at hinit
      have hevolve := get_config_evolve env p args.remap_config
        args.preserve_obfuscated_keys initState
      cases hgc : get_config env p args.remap_config args.preserve_obfuscated_keys
          initState with
      | mk st0 res =>
        rw [hgc] at hinit hevolve
        cases res with
        | error e =>
          simp only [] at hinit
          obtain ⟨h1, -⟩ := Prod.mk.injEq .. ▸ hinit
          rw [← h1] at hcfg
          cases hcfg
        | ok cfg0 =>
          simp only [] at hinit
          obtain ⟨h1, h2⟩ := Prod.mk.injEq .. ▸ hinit
          constructor
          · intro hstrace
            obtain ⟨-, sel, hsel, hdecr⟩ := hevolve
            have hsel0 : st0.strace = sel := by simpa [initState] using hsel
            have hselnil : sel = [] := by
              rw [← hsel0, h2]
              exact hstrace
            have hnone : st0.decryptor = none := by
              rcases hdecr hselnil with hsame | hnone'
              · simpa [initState] using hsame
              · simpa using hnone'
            rw [← h1]
            simp only []
            rw [hnone]
            exact ⟨rfl, rfl⟩
          · intro d hd
            rw [← h2] at hd
            rw [← h1, hd]
            exact ⟨rfl, rfl⟩

/-- C10 (amended): on every terminal failure the report's key and salt
retain the initial empty strings; on every successful parse the key/salt
are either `None` (no active decryptor or absent component) or the hex
encoding of the active decryptor's key/salt; and a successful parse can
report the empty string as key only when the active decryptor exposes an
empty (zero-byte) key, whose hex encoding is empty. -/
theorem claim_C10_amended_key_empty_on_failure
    (env : Env) (args : InitArgs) (r : Report) (st' : ParseState)
    (hinit : rat_config_init env args = (r, st')) :
    (∀ s, r.config = .err s → r.key = "" ∧ r.salt = "") ∧
    (∀ cfg, r.config = .m cfg →
      ((st'.decryptor = none ∧ r.key = "None" ∧ r.salt = "None") ∨
       (∃ d, st'.decryptor = some d ∧ r.key = opt_bytes_str d.key ∧
          r.salt = opt_bytes_str d.salt))) ∧
    (∀ cfg, r.config = .m cfg → r.key = "" →
      ∃ d, st'.decryptor = some d ∧ d.key = some []) := by
  rw [rat_config_init] at hinit
  by_cases hfile : !args.has_data && !(env.isfile args.file_path)
  · rw [if_pos hfile] at hinit
    obtain ⟨h1, -⟩ := Prod.mk.injEq .. ▸ hinit
    refine ⟨fun s _ => by rw [← h1]; exact ⟨rfl, rfl⟩, fun cfg hcfg => ?_,
      fun cfg hcfg _ => ?_⟩ <;>
      (rw [← h1] at hcfg; cases hcfg)
  · rw [if_neg hfile] at hinit
    cases hp : env.payload with
    | error e =>
      rw [hp] at hinit
      simp only [] at hinit
      obtain ⟨h1, -⟩ := Prod.mk.injEq .. ▸ hinit
      refine ⟨fun s _ => by rw [← h1]; exact ⟨rfl, rfl⟩, fun cfg hcfg => ?_,
        fun cfg hcfg _ => ?_⟩ <;>
        (rw [← h1] at hcfg; cases hcfg)
    | ok p =>
      rw [hp] at hinit
      simp only [] at hinit
      cases hgc : get_config env p args.remap_config args.preserve_obfuscated_keys
          initState with
      | mk st0 res =>
        rw [hgc] at hinit
        cases res with
        | error e =>
          simp only [] at hinit
          obtain ⟨h1, -⟩ := Prod.mk.injEq .. ▸ hinit
          refine ⟨fun s _ => by rw [← h1]; exact ⟨rfl, rfl⟩, fun cfg hcfg => ?_,
            fun cfg hcfg _ => ?_⟩ <;>
            (rw [← h1] at hcfg; cases hcfg)
        | ok cfg0 =>
          simp only [] at hinit
          obtain ⟨h1, h2⟩ := Prod.mk.injEq .. ▸ hinit
          refine ⟨fun s hs => ?_, fun cfg hcfg => ?_, fun cfg hcfg hkey => ?_⟩
          · rw [← h1] at hs
            cases hs
          · cases hd : st0.decryptor with
            | none =>
              left
              refine ⟨by rw [← h2]; exact hd, ?_, ?_⟩ <;>
                (rw [← h1]; simp only []; rw [hd]; rfl)
            | some d =>
              right
              refine ⟨d, by rw [← h2]; exact hd, ?_, ?_⟩ <;>
                (rw [← h1]; simp only []; rw [hd]; rfl)
          · cases hd : st0.decryptor with
            | none =>
              rw [← h1] at hkey
              simp only [] at hkey
              rw [hd] at hkey
              exact absurd hkey (by decide)
            | some d =>
              refine ⟨d, by rw [← h2]; exact hd, ?_⟩
              rw [← h1] at hkey
              simp only [] at hkey
              rw [hd] at hkey
              simp only [report_key_str] at hkey
              cases hk : d.key with
              | none =>
                rw [hk] at hkey
                simp only [opt_bytes_str] at hkey
                exact absurd hkey (by decide)
              | some bs =>
                rw [hk] at hkey
                simp only [opt_bytes_str] at hkey
                have hbs : bs = [] := (bytesHex_eq_empty_iff bs).mp hkey
                rw [hbs]

/-! ### Concrete environments for counterexamples and witnesses -/

/-- A 20-byte blob matching the VerifyHash marker pattern at offset 0. -/
def patternBytes : List Nat :=
  [0x7E, 0, 0, 0, 0x04, 0x6F, 0, 0, 0, 0x0A, 0x6F, 0, 0, 0, 0x0A, 0x74, 0, 0, 0, 0x01]

/-- Payload whose marker hit resolves to a method with an empty body and
whose single schema yields four plain fields. -/
def pC1 : DotNetPEPayload :=
  { sha256 := "c1digest", yara_match := "c1fam",
    data := patternBytes,
    field_name_from_rva := fun n => "f" ++ toString n,
    user_string_from_rva := fun _ => "",
    byte_array_from_size_and_rva := fun _ _ => [],
    methods_from_name := fun _ => [],
    method_body_from_method := fun _ => [],
    method_from_instruction_offset := fun _ _ => ⟨0⟩ }

def itemC1 : ConfigItem :=
  { kind := .plain,
    parse_from := fun _ => [(1, .vnat 11), (2, .vnat 12), (3, .vnat 13), (4, .vnat 14)] }

def envC1 : Env :=
  { SUPPORTED_CONFIG_ITEMS := [itemC1], SUPPORTED_DECRYPTORS := [],
    KNOWN_CONFIG_FIELD_NAMES := [], check_key_n_value := fun k v => (k, v),
    isfile := fun _ => true, payload := .ok pC1 }

/-- The four-field configuration decoded from `pC1`. -/
def cfgC1 : List (String × Value) :=
  [("f1", .vnat 11), ("f2", .vnat 12), ("f3", .vnat 13), ("f4", .vnat 14)]

/-- The decode accumulator produced on `pC1` (used by the C7 witness). -/
def accC7 : DecodeAcc :=
  ⟨cfgC1, [(1, "f1"), (2, "f2"), (3, "f3"), (4, "f4")], some cfgC1⟩

/-- Payload with one `.cctor` whose body decodes to five plain fields. -/
def pBF : DotNetPEPayload :=
  { sha256 := "bfdigest", yara_match := "bffam",
    data := [],
    field_name_from_rva := fun n => "g" ++ toString n,
    user_string_from_rva := fun _ => "",
    byte_array_from_size_and_rva := fun _ _ => [],
    methods_from_name := fun _ => [⟨3⟩],
    method_body_from_method := fun _ => [],
    method_from_instruction_offset := fun _ _ => ⟨0⟩ }

def itemBF : ConfigItem :=
  { kind := .plain,
    parse_from := fun _ =>
      [(1, .vnat 1), (2, .vnat 2), (3, .vnat 3), (4, .vnat 4), (5, .vnat 5)] }

def envBF : Env :=
  { SUPPORTED_CONFIG_ITEMS := [itemBF], SUPPORTED_DECRYPTORS := [],
    KNOWN_CONFIG_FIELD_NAMES := [], check_key_n_value := fun k v => (k, v),
    isfile := fun _ => true, payload := .ok pBF }

def argsBF : InitArgs := ⟨"bf.bin", true, false, true⟩

def cfgBF : List (String × Value) :=
  [("g1", .vnat 1), ("g2", .vnat 2), ("g3", .vnat 3), ("g4", .vnat 4), ("g5", .vnat 5)]

/-- A decryptor that succeeds but exposes an empty (zero-byte) key. -/
def dEmptyKey : Decryptor := ⟨some [], none, fun d => .ok d⟩

def pC10 : DotNetPEPayload :=
  { sha256 := "c10digest", yara_match := "",
    data := [],
    field_name_from_rva := fun n => "h" ++ toString n,
    user_string_from_rva := fun _ => "cipher",
    byte_array_from_size_and_rva := fun _ _ => [],
    methods_from_name := fun _ => [⟨7⟩],
    method_body_from_method := fun _ => [],
    method_from_instruction_offset := fun _ _ => ⟨0⟩ }

def itemC10 : ConfigItem :=
  { kind := .encryptedString,
    parse_from := fun _ =>
      [(1, .vnat 1), (2, .vnat 2), (3, .vnat 3), (4, .vnat 4), (5, .vnat 5)] }

def envC10 : Env :=
  { SUPPORTED_CONFIG_ITEMS := [itemC10],
    SUPPORTED_DECRYPTORS := [⟨0, .cok dEmptyKey⟩],
    KNOWN_CONFIG_FIELD_NAMES := [], check_key_n_value := fun k v => (k, v),
    isfile := fun _ => true, payload := .ok pC10 }

def argsC10 : InitArgs := ⟨"c10.bin", true, false, true⟩

def cfgC10 : List (String × Value) :=
  [("h1", .vstr "cipher"), ("h2", .vstr "cipher"), ("h3", .vstr "cipher"),
   ("h4", .vstr "cipher"), ("h5", .vstr "cipher")]

/-- An environment whose payload construction fails. -/
def envFail : Env :=
  { SUPPORTED_CONFIG_ITEMS := [], SUPPORTED_DECRYPTORS := [],
    KNOWN_CONFIG_FIELD_NAMES := [], check_key_n_value := fun k v => (k, v),
    isfile := fun _ => true, payload := .error (.payloadLoad "bad payload") }

def argsFail : InitArgs := ⟨"broken.bin", true, false, false⟩

/-- A decryptor whose batch decryption always fails (for the C6 witness). -/
def dAlwaysFails : Decryptor := ⟨none, none, fun _ => .error ()⟩

def kindW : DecryptorKind := ⟨0, .cok dAlwaysFails⟩

def stW : ParseState := ⟨some dAlwaysFails, [], [], []⟩

/-- Key/value normalization and inputs for the C8 witness. -/
def ckvW : String → Value → String × Value :=
  fun k v => if k = "f1" then ("host", v) else (k, v)

def fieldsMapW : List (Nat × String) := [(2, "f2"), (1, "f1")]

def decodedW : List (String × Value) :=
  [("f1", .vnat 1), ("f2", .vnat 2), ("dyn", .vstr "d")]

def outW : List (String × Value) :=
  [("host", .vnat 1), ("f2", .vnat 2), ("dyn", .vstr "d")]

/-! ### C1 (code bug) and remaining closed theorems -/

/-- C1: the claim (and the spec, and the source's own floor constant and
comments) say Strategy A never accepts a decode below the floor threshold
5; the code's retry loop checks `min_config_len < floor` before
decrementing, so it performs one extra attempt at threshold 4.  On `pC1`
the decode fails at every threshold from 9 down to 5 (four fields, no
`UrlHost`), yet `_get_config_verify_hash_method` succeeds, returning a
4-field configuration accepted at threshold 4 — below the floor. -/
theorem claim_C1_strategyA_accepts_below_floor :
    (decrypt_and_decode_config envC1 pC1 false [] 5 initState).2 =
      .error (.insufficientFields 4 5) ∧
    (decrypt_and_decode_config envC1 pC1 false [] 4 initState).2 = .ok cfgC1 ∧
    (get_config_verify_hash_method envC1 pC1 false initState).2 = .ok (0, cfgC1) ∧
    cfgC1.length = 4 ∧
    dictContains cfgC1 "UrlHost" = false := by
  refine ⟨rfl, rfl, rfl, rfl, rfl⟩

/-- C10 (counterexample): a parse that completes successfully while the
active decryptor exposes an empty key reports `key = ""`, the same value
as every failed parse — so observing `key == ""` does not characterize
failed parses. -/
theorem claim_C10_counterexample_empty_key_success :
    (rat_config_init envC10 argsC10).1.config = .m cfgC10 ∧
    (rat_config_init envC10 argsC10).1.key = "" := by
  refine ⟨rfl, rfl⟩

/-! ### Witnesses -/

/-- C2 witness: the amended statement at the spec's example shape (an
all-ASCII unknown key followed by a non-ASCII key). -/
theorem claim_C2_witness :
    is_likely_obfuscated_config KNOWN_CONFIG_FIELD_NAMES_spec
      [("host", .vstr "h"), ("éKey", .vstr "a")] = true :=
  claim_C2_nonascii_priority_in_scan_order KNOWN_CONFIG_FIELD_NAMES_spec
    [("host", .vstr "h")] [] "éKey" (.vstr "a") rfl (by decide)

/-- C3 witness: the brute-force search on `pBF` (one `.cctor`) equals the
first-success scan over the flattened attempt list. -/
theorem claim_C3_witness :
    get_config_cctor_brute_force envBF pBF false initState =
      (match first_success envBF pBF false
          (brute_force_attempts (candidate_cctor_data pBF) [9, 8, 7, 6, 5])
          initState with
        | (st', some r) => (st', .ok r)
        | (st', none) => (st', .error .bruteForceExhausted)) :=
  (claim_C3_brute_force_first_success_order envBF pBF false initState).2.1 (by decide)

/-- C5 witness: the incompatible-set chain property at a concrete parse. -/
theorem claim_C5_witness :
    ∃ evs,
      (get_config envC10 pC10 false true initState).1.ctrace =
        initState.ctrace ++ evs ∧
      IncompatChain initState.incompatible evs
        (get_config envC10 pC10 false true initState).1.incompatible ∧
      (∀ k, k ∈ initState.incompatible → ∀ S, (k, S) ∉ evs) ∧
      (∃ d, (get_config envC10 pC10 false true initState).1.incompatible =
        initState.incompatible ++ d) :=
  claim_C5_incompatible_monotonic_never_reattempted envC10 pC10 false true initState

/-- C6 witness: a transient decryption failure resets the selection and
moves to the next kind, both for a reused decryptor and for one freshly
constructed in the same iteration (whose attempt only the ghost traces
record, the incompatible set staying empty). -/
theorem claim_C6_witness :
    (decryptLoop [("a", Value.vstr "x")] [kindW] stW =
      decryptLoop [("a", Value.vstr "x")] [] { stW with decryptor := none }) ∧
    (decryptLoop [("a", Value.vstr "x")] [kindW] initState =
      decryptLoop [("a", Value.vstr "x")] []
        { initState with
            decryptor := none,
            ctrace := initState.ctrace ++ [(kindW.kid, initState.incompatible)],
            strace := initState.strace ++ [kindW.kid] }) :=
  ⟨(claim_C6_selection_loop_behavior envC10 [("a", Value.vstr "x")] stW).1
      kindW [] dAlwaysFails () rfl (by decide) rfl,
   (claim_C6_selection_loop_behavior envC10 [("a", Value.vstr "x")] initState).2.1
      kindW [] dAlwaysFails () rfl (by decide) rfl rfl⟩

/-- C7 witness: on `pC1` at threshold 9 the decode fails with exactly the
insufficient-fields error (4 fields, no `UrlHost` in the last schema). -/
theorem claim_C7_witness :
    (decrypt_and_decode_config envC1 pC1 false [] 9 initState).2 =
      .error (.insufficientFields 4 9) := by
  have h := claim_C7_insufficient_fields_iff_urlhost_carveout envC1 pC1 false []
    9 initState initState accC7 rfl
  exact h.1.mpr ⟨by decide, cfgC1, rfl, by decide⟩

/-- C8 witness: a remap with one renamed key and one dynamic key splits
into the canonical pass followed by the preserved dynamic entry. -/
theorem claim_C8_witness :
    ∃ pass1 normed,
      remap_pass1 ckvW fieldsMapW decodedW (sortNats (dictKeys fieldsMapW)) [] [] =
        .ok (pass1, normed) ∧
      outW = pass1 ++ decodedW.filter
        (fun kv => !(dictContains pass1 kv.1) && !(normed.contains kv.1)) :=
  claim_C8_remap_canonical_pass_then_leftovers ckvW fieldsMapW decodedW outW
    (by decide) rfl

/-- C9 witness: the five-plain-field brute-force parse selects no decryptor
and reports key and salt as `None`. -/
theorem claim_C9_witness :
    (rat_config_init envBF argsBF).1.key = "None" ∧
    (rat_config_init envBF argsBF).1.salt = "None" :=
  (claim_C9_key_salt_none_or_hex envBF argsBF
    (rat_config_init envBF argsBF).1 (rat_config_init envBF argsBF).2
    rfl cfgBF rfl).1 rfl

/-- C10 witness (amended claim): a failed parse keeps the initial empty
key/salt strings. -/
theorem claim_C10_witness :
    (rat_config_init envFail argsFail).1.key = "" ∧
    (rat_config_init envFail argsFail).1.salt = "" :=
  (claim_C10_amended_key_empty_on_failure envFail argsFail
    (rat_config_init envFail argsFail).1 (rat_config_init envFail argsFail).2
    rfl).1 (exc_message "broken.bin" (.payloadLoad "bad payload")) rfl
